import Mathlib

/-!
Verification development for the Python_Mini_Utilities repository.

Each Python tool relevant to the specification is shallowly embedded as
executable Lean definitions: Python strings become `List Char`, Python ints
become `Nat`/`Int`, floats that only flow through comparisons become `ℚ` or
stay abstract, and I/O (files, sockets) is made explicit as state passed in
and out.  Theorems at the end of the file settle the specification claims.
-/

namespace Py

/-- Characters that Python `str.strip()` / `str.isspace()` treat as whitespace
(ASCII subset; the tools in this repository only handle ASCII text). -/
def pyIsSpace (c : Char) : Bool :=
  c = ' ' || c = '\t' || c = '\n' || c = '\x0d' || c = '\x0b' || c = '\x0c'

/-- Python `s.strip()`: remove leading and trailing whitespace. -/
def pyStrip (s : List Char) : List Char :=
  ((s.dropWhile pyIsSpace).reverse.dropWhile pyIsSpace).reverse

/-- Python `s.lower()` (ASCII). -/
def pyLower (s : List Char) : List Char := s.map Char.toLower

/-- Python `s.isspace()`: nonempty and all characters whitespace. -/
def pyIsSpaceStr (s : List Char) : Bool := !s.isEmpty && s.all pyIsSpace

end Py

namespace TodoCli

open Py

/-- MAX_TASK_LEN constant from todo_cli.py. -/
def MAX_TASK_LEN : Nat := 36

/-- Embeds `add_task` from todo_cli.py.  The on-disk todo file is made
explicit: `todos` is the list returned by `load_todos()`, and a successful
`save_todos` is the `some` result.  `none` corresponds to returning `False`
(empty task or duplicate), in which case the file is untouched. -/
def add_task (task : List Char) (todos : List (List Char)) :
    Option (List (List Char)) :=
  let task1 := pyStrip task
  if task1.isEmpty then none
  else
    let task2 := if task1.length > MAX_TASK_LEN then task1.take MAX_TASK_LEN else task1
    if (todos.map (fun t => pyLower (pyStrip t))).contains (pyLower task2) then none
    else some (todos ++ [task2])

/-- Embeds `is_completed` from todo_cli.py: the task starts with `"[x] "`
or with `"[x]"`. -/
def is_completed (task : List Char) : Bool :=
  ['[', 'x', ']', ' '].isPrefixOf task || ['[', 'x', ']'].isPrefixOf task

/-- Embeds `toggle_completion` from todo_cli.py: strip the `"[x] "` (or bare
`"[x]"`) marker from a completed task, or prepend `"[x] "` via the f-string
otherwise. -/
def toggle_completion (task : List Char) : List Char :=
  if is_completed task then
    if ['[', 'x', ']', ' '].isPrefixOf task then task.drop 4 else task.drop 3
  else
    '[' :: 'x' :: ']' :: ' ' :: task

end TodoCli

namespace PasswordChecker

open Py

/-- MIN_PASSWORD_LENGTH constant from password_checker.py. -/
def MIN_PASSWORD_LENGTH : Nat := 4

/-- Embeds `validate_password_input` from password_checker.py for string
inputs (the `None` / non-`str` branches concern Python dynamic typing and
cannot arise for a `List Char` argument).  Returns the `(is_valid,
error_message)` pair; the interpolated length numbers of the "too short"
message are elided. -/
def validate_password_input (password : List Char) : Bool × Option String :=
  if password.length = 0 then
    (false, some "Password cannot be empty. Please enter a password.")
  else if pyIsSpaceStr password then
    (false, some "Password cannot be only whitespace. Please enter a valid password.")
  else if password.length < MIN_PASSWORD_LENGTH then
    (false, some "Password is too short. Please use at least 4 characters.")
  else
    (true, none)

/-- Embeds `check_password_strength` from password_checker.py.  `sum` over a
list of Python booleans is the count of `True` entries. -/
def check_password_strength (password : List Char) : String :=
  match validate_password_input password with
  | (false, some msg) => msg
  | (false, none) => ""
  | (true, _) =>
    let length_score := password.length ≥ 8
    let has_upper := password.any Char.isUpper
    let has_lower := password.any Char.isLower
    let has_digit := password.any Char.isDigit
    let score := (if length_score then 1 else 0) + (if has_upper then 1 else 0)
      + (if has_lower then 1 else 0) + (if has_digit then 1 else 0)
    if score ≤ 2 then "Weak"
    else if score = 3 then "Medium"
    else "Strong"

/-- The number of satisfied strength criteria of a password (length ≥ 8,
has-uppercase, has-lowercase, has-digit), as summed in
`check_password_strength`. -/
def criteriaScore (password : List Char) : Nat :=
  (if password.length ≥ 8 then 1 else 0)
    + (if password.any Char.isUpper then 1 else 0)
    + (if password.any Char.isLower then 1 else 0)
    + (if password.any Char.isDigit then 1 else 0)

/-- The strength label as a function of the criteria count alone. -/
def labelOfScore (score : Nat) : String :=
  if score ≤ 2 then "Weak" else if score = 3 then "Medium" else "Strong"

/-- Numeric rank of a strength label, for stating monotonicity. -/
def labelRank (label : String) : Nat :=
  if label = "Weak" then 0 else if label = "Medium" then 1 else 2

end PasswordChecker

namespace ChemToolkit

/-- Symbols of the PERIODIC_TABLE dict in chem_toolkit.py (only key membership
is used by `parse_formula`; the weight/name/group/phase payloads are unused
there). -/
def PERIODIC_TABLE : List String :=
  ["H", "He", "Li", "Be", "B", "C", "N", "O", "F", "Ne",
   "Na", "Mg", "Al", "Si", "P", "S", "Cl", "Ar", "K", "Ca",
   "Sc", "Ti", "V", "Cr", "Mn", "Fe", "Co", "Ni", "Cu", "Zn",
   "Ga", "Ge", "As", "Se", "Br", "Kr", "Rb", "Sr", "Y", "Zr",
   "Nb", "Mo", "Tc", "Ru", "Rh", "Pd", "Ag", "Cd", "In", "Sn",
   "Sb", "Te", "I", "Xe", "Cs", "Ba", "La", "Ce", "Pr", "Nd",
   "Pm", "Sm", "Eu", "Gd", "Tb", "Dy", "Ho", "Er", "Tm", "Yb",
   "Lu", "Hf", "Ta", "W", "Re", "Os", "Ir", "Pt", "Au", "Hg",
   "Tl", "Pb", "Bi", "Po", "At", "Rn", "Fr", "Ra", "Ac", "Th",
   "Pa", "U", "Np", "Pu", "Am", "Cm", "Bk", "Cf", "Es", "Fm",
   "Md", "No", "Lr", "Rf", "Db", "Sg", "Bh", "Hs", "Mt", "Ds",
   "Rg", "Cn", "Nh", "Fl", "Mc", "Lv", "Ts", "Og"]

/-- A parenthesis or square-bracket character (the character classes of the
group regex in `parse_formula`). -/
def isBracket (c : Char) : Bool := c = '(' || c = '[' || c = ')' || c = ']'

/-- Python `int()` on a nonempty decimal digit string. -/
def digitsToNat (ds : List Char) : Nat :=
  ds.foldl (fun n c => n * 10 + (c.toNat - 48)) 0

/-- The `int(m) if m else 1` idiom applied to a captured digit run. -/
def countOf (ds : List Char) : Nat := if ds.isEmpty then 1 else digitsToNat ds

/-- Leftmost match of the innermost-group regex
`[\(\[]([^\(\)\[\]]+)[\)\]](\d*)` used by `parse_formula`: an opening
bracket, one or more non-bracket characters, a closing bracket, and a
greedy digit run.  Returns `(text before the match, group content, digit
run, text after the match)`, or `none` when the regex does not match. -/
def findGroup : List Char → Option (List Char × List Char × List Char × List Char)
  | [] => none
  | c :: rest =>
    let tryHere : Option (List Char × List Char × List Char) :=
      if c = '(' || c = '[' then
        let content := rest.takeWhile (fun x => !isBracket x)
        match rest.dropWhile (fun x => !isBracket x) with
        | d :: rest2 =>
          if !content.isEmpty && (d = ')' || d = ']') then
            some (content, rest2.takeWhile Char.isDigit, rest2.dropWhile Char.isDigit)
          else none
        | [] => none
      else none
    match tryHere with
    | some (content, ds, post) => some ([], content, ds, post)
    | none =>
      match findGroup rest with
      | some (pre, g, ds, post) => some (c :: pre, g, ds, post)
      | none => none

/-- Fuelled scanner behind `tokenize`; each step consumes at least one input
character, so fuel equal to the input length always suffices. -/
def tokenizeAux : Nat → List Char → List (List Char × Nat)
  | 0, _ => []
  | _, [] => []
  | fuel + 1, c :: rest =>
    if c.isUpper then
      match rest with
      | l :: rest2 =>
        if l.isLower then
          ([c, l], countOf (rest2.takeWhile Char.isDigit))
            :: tokenizeAux fuel (rest2.dropWhile Char.isDigit)
        else
          ([c], countOf (rest.takeWhile Char.isDigit))
            :: tokenizeAux fuel (rest.dropWhile Char.isDigit)
      | [] => [([c], 1)]
    else tokenizeAux fuel rest

/-- All matches of the element regex `([A-Z][a-z]?)(\d*)` in order, as
`re.finditer` yields them inside `parse_formula`: each match is the element
symbol together with its count (`1` when no digits follow); non-matching
characters are skipped. -/
def tokenize (l : List Char) : List (List Char × Nat) := tokenizeAux l.length l

/-- One group expansion in `parse_formula`: each element of the group is
re-emitted with its count multiplied by the group multiplier, the count
being printed only when greater than 1. -/
def expandGroup (content : List Char) (mult : Nat) : List Char :=
  (tokenize content).foldl
    (fun acc ec =>
      if ec.2 * mult > 1 then acc ++ ec.1 ++ Nat.toDigits 10 (ec.2 * mult)
      else acc ++ ec.1) []

/-- The `while '(' in formula or '[' in formula` loop of `parse_formula`,
with explicit fuel (each iteration with a match removes one bracket pair, so
`length + 1` fuel always suffices). -/
def expandLoop : Nat → List Char → List Char
  | 0, f => f
  | fuel + 1, f =>
    if f.contains '(' || f.contains '[' then
      match findGroup f with
      | none => f
      | some (pre, g, ds, post) =>
        expandLoop fuel (pre ++ expandGroup g (countOf ds) ++ post)
    else f

/-- Insertion-ordered `defaultdict(int)` increment:
`composition[element] += count`. -/
def addCount : List (String × Nat) → String → Nat → List (String × Nat)
  | [], s, n => [(s, n)]
  | (k, v) :: rest, s, n =>
    if k = s then (k, v + n) :: rest else (k, v) :: addCount rest s n

/-- Embeds `parse_formula` from chem_toolkit.py: expand bracketed groups
innermost-first, then accumulate element counts in encounter order, raising
(`Except.error`) on a symbol that is not a PERIODIC_TABLE key. -/
def parse_formula (formula : List Char) : Except String (List (String × Nat)) :=
  let expanded := expandLoop (formula.length + 1) formula
  (tokenize expanded).foldlM
    (fun comp ec =>
      let sym := String.mk ec.1
      if PERIODIC_TABLE.contains sym then Except.ok (addCount comp sym ec.2)
      else Except.error (String.append "Unknown element: " sym))
    []

end ChemToolkit

namespace PortWatcher

/-- Outcome of one TCP connect attempt made by `check_port` in
port_watcher.py: either the C-level connect returns a result code through
`connect_ex` (`0` when the connect completes, a nonzero errno such as
ECONNREFUSED otherwise), or a `socket.error` — which includes
`socket.timeout` — is raised. -/
inductive ConnectOutcome where
  | result (code : Nat)
  | raised
deriving DecidableEq

/-- Embeds `PortWatcher.check_port`: `True` (busy) exactly when
`connect_ex` returns `0`; any raised socket error yields `False` (free). -/
def check_port (outcome : ConnectOutcome) : Bool :=
  match outcome with
  | .result code => code == 0
  | .raised => false

/-- Embeds the scanning loop of `PortWatcher.scan_ports`.  The network is
made explicit as `probe`, giving the connect outcome at each port (each port
is probed once, so a single outcome per port determines the scan); terminal
printing is ignored and the wall-clock duration of the sweep is the ambient
quantity `elapsed`, returned unchanged as the third component. -/
def scan_ports (probe : Nat → ConnectOutcome) (startPort endPort : Nat)
    (elapsed : ℚ) : List Nat × List Nat × ℚ :=
  let ports := List.range' startPort (endPort + 1 - startPort)
  let acc := ports.foldl
    (fun acc port =>
      if check_port (probe port) then (acc.1 ++ [port], acc.2)
      else (acc.1, acc.2 ++ [port]))
    ([], [])
  (acc.1, acc.2, elapsed)

/-- Parsed command-line arguments of port_watcher.py relevant to range
validation; `stop` embeds `args.end` (`end` is reserved in Lean).  The
argparse defaults are start = 8000, stop = 9000, port = none. -/
structure Args where
  port : Option Int
  start : Int
  stop : Int
deriving DecidableEq

/-- What `main` in port_watcher.py decides before any port is probed:
either return an exit code without scanning, or scan an inclusive range. -/
inductive MainResult where
  | exitError (code : Nat)
  | scan (startPort endPort : Int)
deriving DecidableEq

/-- Python truthiness of `args.port` (an `Option Int`): `if args.port:`
is taken exactly when the value is present and nonzero. -/
def truthy (v : Option Int) : Bool :=
  match v with
  | none => false
  | some n => n != 0

/-- The range-arguments branch of `main`'s validation (taken when
`args.port` is falsy): bounds check both endpoints, then order. -/
def rangeDispatch (a : Args) : MainResult :=
  if ¬(1 ≤ a.start ∧ a.start ≤ 65535) ∨ ¬(1 ≤ a.stop ∧ a.stop ≤ 65535) then
    .exitError 1
  else if a.start > a.stop then .exitError 1
  else .scan a.start a.stop

/-- Embeds the argument validation of `main` in port_watcher.py (the part
after the documentation flags): `if args.port:` selects the single-port
check by Python truthiness, otherwise the range checks run. -/
def validateAndDispatch (a : Args) : MainResult :=
  if truthy a.port then
    match a.port with
    | some p => if 1 ≤ p ∧ p ≤ 65535 then .scan p p else .exitError 1
    | none => .exitError 1
  else rangeDispatch a

end PortWatcher

namespace FinanceTracker

/-- JSON values, the shape of what `json.load` / `json.dump` exchange in
finance_tracker.py. -/
inductive JValue where
  | jNull
  | jBool (b : Bool)
  | jNum (q : ℚ)
  | jStr (s : String)
  | jArr (xs : List JValue)
  | jObj (kvs : List (String × JValue))

/-- The empty persisted state of the tracker. -/
def emptyState : List (String × JValue) :=
  [("transactions", JValue.jArr []), ("goals", JValue.jArr [])]

/-- What reading and parsing the data file can yield for `load_data`:
no file on disk, a `json.JSONDecodeError`/`IOError`, or a successfully
parsed top-level JSON object given by its key/value pairs.  (A parsed
top-level non-object is outside the states the specification describes.) -/
inductive LoadResult where
  | missingFile
  | parseError
  | parsedObj (kvs : List (String × JValue))

/-- Python `key in data` on a dict. -/
def keyIn (k : String) (kvs : List (String × JValue)) : Bool :=
  (kvs.lookup k).isSome

/-- Python dict assignment `data[k] = v`: replace in place, or append. -/
def setKey (k : String) (v : JValue) :
    List (String × JValue) → List (String × JValue)
  | [] => [(k, v)]
  | (k1, v1) :: rest =>
    if k1 = k then (k1, v) :: rest else (k1, v1) :: setKey k v rest

/-- The `isinstance(data[k], list)` coercion in `load_data`: a non-list
value under `k` is replaced by the empty list. -/
def coerceListKey (k : String) (kvs : List (String × JValue)) :
    List (String × JValue) :=
  match kvs.lookup k with
  | some (JValue.jArr _) => kvs
  | some _ => setKey k (JValue.jArr []) kvs
  | none => kvs

/-- Embeds `FinanceTracker.load_data`: a missing file, a parse/IO error, or
a parsed object missing either required key all produce the empty state;
otherwise the parsed object is kept with non-list values of the two keys
coerced to empty lists. -/
def load_data (r : LoadResult) : List (String × JValue) :=
  match r with
  | .missingFile => emptyState
  | .parseError => emptyState
  | .parsedObj kvs =>
    if keyIn "transactions" kvs && keyIn "goals" kvs then
      coerceListKey "goals" (coerceListKey "transactions" kvs)
    else emptyState

/-- The two files `save_data` touches, by parsed content (`json.dump` is
deterministic, so equality of the serialized `JValue` is byte equality of
the files): `main` is finance_data.json, `bak` its sibling backup. -/
structure FS where
  main : Option JValue
  bak : Option JValue

/-- Embeds `FinanceTracker.save_data` on the success path of the file
operations: an empty `self.data` dict is refused; otherwise the current
data file (when present) is first copied to the backup, and the temp-file
write followed by the atomic rename replaces the data file with the
serialization of `data`.  Returns the new file state and the boolean the
method returns. -/
def save_data (fs : FS) (data : List (String × JValue)) : FS × Bool :=
  if data.isEmpty then (fs, false)
  else
    let bak1 := match fs.main with
      | some v => some v
      | none => fs.bak
    ({ main := some (JValue.jObj data), bak := bak1 }, true)

/-- The `self.data["transactions"].append(tx)` step of `add_transaction`. -/
def appendTransaction (data : List (String × JValue)) (tx : JValue) :
    List (String × JValue) :=
  data.map (fun kv =>
    if kv.1 = "transactions" then
      (kv.1, match kv.2 with
        | JValue.jArr xs => JValue.jArr (xs ++ [tx])
        | v => v)
    else kv)

/-- Embeds the state change of `FinanceTracker.add_transaction` once the
interactive loops have produced a validated transaction `tx`: append it to
`self.data["transactions"]` and call `save_data`.  Returns the new file
state and the new in-memory data. -/
def add_transaction (fs : FS) (data : List (String × JValue)) (tx : JValue) :
    FS × List (String × JValue) :=
  let data1 := appendTransaction data tx
  ((save_data fs data1).1, data1)

end FinanceTracker

namespace Mandelbrot

/-- Per-cell state carried by the vectorized loop of
`MandelbrotGenerator.calculate_set`: the cell's constant `c` (entry of the
grid `C`), the moving point `z` (entry of `Z`), the recorded escape time
(entry of `escape_time`), and the cell's bit of `mask`.  The numeric type
is abstract: the equivalence of the masked computation with the per-cell
reference holds for any quadratic-step function and escape predicate, in
particular for the IEEE complex arithmetic NumPy performs. -/
structure MCell (α : Type) where
  c : α
  z : α
  esc : Nat
  active : Bool

/-- The loop body of `calculate_set` at loop index `i`, restricted to one
cell: `Z[mask] = Z[mask] * Z[mask] + C[mask]` updates only active cells,
`escape_time[escaped_now & mask] = i` records the index for newly escaped
cells, and `mask[escaped_now] = False` retires them. -/
def stepCell {α : Type} (stepF : α → α → α) (escaped : α → Bool) (i : Nat)
    (s : MCell α) : MCell α :=
  let z1 := if s.active then stepF s.c s.z else s.z
  let escapedNow := escaped z1
  { c := s.c, z := z1,
    esc := if escapedNow && s.active then i else s.esc,
    active := s.active && !escapedNow }

/-- The `for i in range(max_iter)` loop of `calculate_set`, over the whole
grid (kept as a list of cells), including the `if not np.any(mask): break`
early exit. -/
def calcLoop {α : Type} (stepF : α → α → α) (escaped : α → Bool) :
    Nat → Nat → List (MCell α) → List (MCell α)
  | 0, _, cells => cells
  | fuel + 1, i, cells =>
    let cells1 := cells.map (stepCell stepF escaped i)
    if cells1.all (fun s => !s.active) then cells1
    else calcLoop stepF escaped fuel (i + 1) cells1

/-- Embeds `MandelbrotGenerator.calculate_set` for a given flat list of grid
cells: `Z` starts at `z0` (zero), `escape_time` is initialized to
`max_iter`, `mask` to all-true, and the loop runs for `max_iter` indices
(or until everything has escaped). -/
def calculate_set {α : Type} (stepF : α → α → α) (escaped : α → Bool)
    (z0 : α) (maxIter : Nat) (cells : List α) : List Nat :=
  (calcLoop stepF escaped maxIter 0
      (cells.map (fun c => { c := c, z := z0, esc := maxIter, active := true }))).map
    (fun s => s.esc)

/-- One cell iterated through the loop bodies with indices
`i, i + 1, ...` for `fuel` steps, with no early exit. -/
def stepN {α : Type} (stepF : α → α → α) (escaped : α → Bool) :
    Nat → Nat → MCell α → MCell α
  | 0, _, s => s
  | fuel + 1, i, s => stepN stepF escaped fuel (i + 1) (stepCell stepF escaped i s)

/-- Modelled from the spec: helper of the reference per-cell escape time,
scanning iterates `f z, f (f z), ...` with running index `i` and default
`dflt` when fuel runs out. -/
def refEscapeAux {α : Type} (f : α → α) (p : α → Bool) (dflt : Nat) :
    Nat → α → Nat → Nat
  | 0, _, _ => dflt
  | fuel + 1, z, i =>
    let z1 := f z
    if p z1 then i else refEscapeAux f p dflt fuel z1 (i + 1)

/-- Modelled from the spec: the reference per-cell escape-time definition —
the first iteration index `i < max_iter` at which iterating `z ↦ z² + c`
from `z = 0` gives `|z|² > 4` (iteration `i` of the loop produces the
`(i+1)`-st iterate), or `max_iter` if no such index exists within
`max_iter` iterations. -/
def escapeTimeRef {α : Type} (f : α → α) (p : α → Bool) (maxIter : Nat)
    (z0 : α) : Nat :=
  refEscapeAux f p maxIter maxIter z0 0

/-- Quadratic step on exact complex numbers represented as pairs of
rationals: `z ↦ z * z + c`.  Used to instantiate the abstract cell type in
witnesses. -/
def qStep (c z : ℚ × ℚ) : ℚ × ℚ :=
  (z.1 * z.1 - z.2 * z.2 + c.1, 2 * z.1 * z.2 + c.2)

/-- Escape predicate `|z|² > 4` on rational complex numbers. -/
def qEscaped (z : ℚ × ℚ) : Bool := decide (z.1 * z.1 + z.2 * z.2 > 4)

end Mandelbrot

namespace TodoMarkDone

/-- Modelled from the spec: `is_task_done` from the mark-as-done module of
todo_cli whose code is not under src/ (only src/tests/test_todo_cli.py
imports it); a task is done when it carries the `"[x] "` done marker. -/
def is_task_done (task : List Char) : Bool :=
  ['[', 'x', ']', ' '].isPrefixOf task

/-- Modelled from the spec: `get_task_text` from the missing mark-as-done
module — strip a leading `"[x] "` or `"[ ] "` status marker. -/
def get_task_text (task : List Char) : List Char :=
  if ['[', 'x', ']', ' '].isPrefixOf task then task.drop 4
  else if ['[', ' ', ']', ' '].isPrefixOf task then task.drop 4
  else task

/-- Modelled from the spec: `format_task` from the missing mark-as-done
module — prepend the `"[x] "` or `"[ ] "` marker according to `done`. -/
def format_task (text : List Char) (done : Bool) : List Char :=
  (if done then ['[', 'x', ']', ' '] else ['[', ' ', ']', ' ']) ++ text

/-- Modelled from the spec: `mark_task_done` from the missing mark-as-done
module, as the spec and src/tests/test_todo_cli.py describe it — an index
outside `[0, len)` fails with an "Invalid task number" message and leaves
the list unchanged; an already-done task fails with an "already marked as
done" message and leaves the list unchanged; otherwise the task is
reformatted as done and the call succeeds. -/
def mark_task_done (todos : List (List Char)) (index : Int) :
    List (List Char) × Bool × String :=
  if h : 0 ≤ index ∧ index.toNat < todos.length then
    let t := todos.get ⟨index.toNat, h.2⟩
    if is_task_done t then
      (todos, false, "Task is already marked as done")
    else
      (todos.set index.toNat (format_task (get_task_text t) true), true,
        "Marked as done")
  else (todos, false, "Invalid task number")

end TodoMarkDone

section Scratch

example : TodoCli.toggle_completion "Buy milk".toList = "[x] Buy milk".toList := by decide

example : TodoCli.toggle_completion "[x] Buy milk".toList = "Buy milk".toList := by decide

example : PasswordChecker.check_password_strength "password".toList = "Weak" := by decide

example : PasswordChecker.check_password_strength "Password".toList = "Medium" := by decide

example : PasswordChecker.check_password_strength "Password1".toList = "Strong" := by decide

example : TodoCli.add_task "  hello  ".toList [] = some ["hello".toList] := by decide

example : ChemToolkit.parse_formula "Ca(OH)2".toList
    = Except.ok [("Ca", 1), ("O", 2), ("H", 2)] := rfl

example : ChemToolkit.parse_formula "Fe2(SO4)3".toList
    = Except.ok [("Fe", 2), ("S", 3), ("O", 12)] := rfl

end Scratch

/-- The loop body of `calculate_set` is the identity on a retired cell: its
`z` is frozen, its escape time is recorded, and it never re-enters the
mask. -/
theorem stepCell_inactive {α : Type} (stepF : α → α → α) (p : α → Bool)
    (i : Nat) (s : Mandelbrot.MCell α) (h : s.active = false) :
    Mandelbrot.stepCell stepF p i s = s := by
  cases s with
  | mk c z esc active =>
    cases h
    simp [Mandelbrot.stepCell]

/-- Iterating the loop body any number of times fixes a retired cell. -/
theorem stepN_inactive {α : Type} (stepF : α → α → α) (p : α → Bool) :
    ∀ (fuel i : Nat) (s : Mandelbrot.MCell α), s.active = false →
      Mandelbrot.stepN stepF p fuel i s = s
  | 0, _, _, _ => rfl
  | fuel + 1, i, s, h => by
    have h1 : Mandelbrot.stepN stepF p (fuel + 1) i s
        = Mandelbrot.stepN stepF p fuel (i + 1) (Mandelbrot.stepCell stepF p i s) := rfl
    rw [h1, stepCell_inactive stepF p i s h]
    exact stepN_inactive stepF p fuel (i + 1) s h

/-- The grid loop preserves the number of cells. -/
theorem calcLoop_length {α : Type} (stepF : α → α → α) (p : α → Bool) :
    ∀ (fuel i : Nat) (cells : List (Mandelbrot.MCell α)),
      (Mandelbrot.calcLoop stepF p fuel i cells).length = cells.length
  | 0, _, _ => rfl
  | fuel + 1, i, cells => by
    show (if (cells.map (Mandelbrot.stepCell stepF p i)).all (fun s => !s.active)
        then cells.map (Mandelbrot.stepCell stepF p i)
        else Mandelbrot.calcLoop stepF p fuel (i + 1)
          (cells.map (Mandelbrot.stepCell stepF p i))).length = cells.length
    split
    · simp
    · rw [calcLoop_length stepF p fuel (i + 1)]
      simp

/-- Equal lists have equal entries at a common index. -/
theorem get_congr {β : Type} {l1 l2 : List β} (h : l1 = l2) (j : Nat)
    (h1 : j < l1.length) (h2 : j < l2.length) :
    l1.get ⟨j, h1⟩ = l2.get ⟨j, h2⟩ := by
  subst h
  rfl

/-- Cell-wise meaning of the grid loop: the early exit fires only when
every cell is retired, and retired cells are fixed, so each cell of the
result is its own full iteration under the loop bodies. -/
theorem calcLoop_get {α : Type} (stepF : α → α → α) (p : α → Bool) :
    ∀ (fuel i : Nat) (cells : List (Mandelbrot.MCell α)) (j : Nat)
      (hj : j < cells.length)
      (hj2 : j < (Mandelbrot.calcLoop stepF p fuel i cells).length),
      (Mandelbrot.calcLoop stepF p fuel i cells).get ⟨j, hj2⟩
        = Mandelbrot.stepN stepF p fuel i (cells.get ⟨j, hj⟩)
  | 0, _, _, _, _, _ => rfl
  | fuel + 1, i, cells, j, hj, hj2 => by
    have hmap : j < (cells.map (Mandelbrot.stepCell stepF p i)).length := by
      simpa using hj
    have hcell : (cells.map (Mandelbrot.stepCell stepF p i)).get ⟨j, hmap⟩
        = Mandelbrot.stepCell stepF p i (cells.get ⟨j, hj⟩) := by
      simp [List.get_eq_getElem, List.getElem_map]
    have hrec : Mandelbrot.stepN stepF p (fuel + 1) i (cells.get ⟨j, hj⟩)
        = Mandelbrot.stepN stepF p fuel (i + 1)
            (Mandelbrot.stepCell stepF p i (cells.get ⟨j, hj⟩)) := rfl
    by_cases hall : (cells.map (Mandelbrot.stepCell stepF p i)).all (fun s => !s.active) = true
    · have hloop : Mandelbrot.calcLoop stepF p (fuel + 1) i cells
          = cells.map (Mandelbrot.stepCell stepF p i) := by
        show (if (cells.map (Mandelbrot.stepCell stepF p i)).all (fun s => !s.active)
            then cells.map (Mandelbrot.stepCell stepF p i)
            else Mandelbrot.calcLoop stepF p fuel (i + 1)
              (cells.map (Mandelbrot.stepCell stepF p i))) = _
        rw [if_pos hall]
      have hact : (Mandelbrot.stepCell stepF p i (cells.get ⟨j, hj⟩)).active = false := by
        have hm := List.get_mem (cells.map (Mandelbrot.stepCell stepF p i)) j hmap
        rw [hcell] at hm
        have h5 := (List.all_eq_true.mp hall) _ hm
        simpa using h5
      rw [get_congr hloop j hj2 hmap, hcell, hrec,
        stepN_inactive stepF p fuel (i + 1) _ hact]
    · have hloop : Mandelbrot.calcLoop stepF p (fuel + 1) i cells
          = Mandelbrot.calcLoop stepF p fuel (i + 1)
              (cells.map (Mandelbrot.stepCell stepF p i)) := by
        show (if (cells.map (Mandelbrot.stepCell stepF p i)).all (fun s => !s.active)
            then cells.map (Mandelbrot.stepCell stepF p i)
            else Mandelbrot.calcLoop stepF p fuel (i + 1)
              (cells.map (Mandelbrot.stepCell stepF p i))) = _
        rw [if_neg hall]
      have hj4 : j < (Mandelbrot.calcLoop stepF p fuel (i + 1)
          (cells.map (Mandelbrot.stepCell stepF p i))).length := by
        rw [calcLoop_length]
        exact hmap
      rw [get_congr hloop j hj2 hj4,
        calcLoop_get stepF p fuel (i + 1) _ j hmap hj4, hcell, hrec]

/-- The escape-time field of an active cell iterated with indices
`i, i + 1, ...` equals the reference scan of the iterates of its own
quadratic map, with the cell's current record as default. -/
theorem stepN_esc {α : Type} (stepF : α → α → α) (p : α → Bool) (c : α) (E : Nat) :
    ∀ (fuel i : Nat) (z : α),
      (Mandelbrot.stepN stepF p fuel i
          { c := c, z := z, esc := E, active := true }).esc
        = Mandelbrot.refEscapeAux (fun w => stepF c w) p E fuel z i
  | 0, _, _ => rfl
  | fuel + 1, i, z => by
    have hstep : Mandelbrot.stepCell stepF p i
        { c := c, z := z, esc := E, active := true }
        = { c := c, z := stepF c z,
            esc := if p (stepF c z) then i else E,
            active := !p (stepF c z) } := by
      simp [Mandelbrot.stepCell]
    have h1 : Mandelbrot.stepN stepF p (fuel + 1) i
        { c := c, z := z, esc := E, active := true }
        = Mandelbrot.stepN stepF p fuel (i + 1)
            (Mandelbrot.stepCell stepF p i
              { c := c, z := z, esc := E, active := true }) := rfl
    have h2 : Mandelbrot.refEscapeAux (fun w => stepF c w) p E (fuel + 1) z i
        = if p (stepF c z) then i
          else Mandelbrot.refEscapeAux (fun w => stepF c w) p E fuel (stepF c z) (i + 1) := rfl
    rw [h1, hstep, h2]
    by_cases hp : p (stepF c z) = true
    · simp only [hp, if_true, Bool.not_true]
      rw [stepN_inactive stepF p fuel (i + 1) _ rfl]
    · have hp2 : p (stepF c z) = false := by
        cases hval : p (stepF c z)
        · rfl
        · exact absurd hval hp
      simp only [hp2, Bool.false_eq_true, if_false, Bool.not_false]
      exact stepN_esc stepF p c E fuel (i + 1) (stepF c z)

/-- The accumulating fold of `scan_ports` produces the busy and free
sublists as filters of the scanned port list. -/
theorem scan_foldl_eq (probe : Nat → PortWatcher.ConnectOutcome)
    (ports : List Nat) : ∀ b1 b2 : List Nat,
    ports.foldl
        (fun acc port =>
          if PortWatcher.check_port (probe port) then (acc.1 ++ [port], acc.2)
          else (acc.1, acc.2 ++ [port])) (b1, b2)
      = (b1 ++ ports.filter (fun p => PortWatcher.check_port (probe p)),
         b2 ++ ports.filter (fun p => !PortWatcher.check_port (probe p))) := by
  induction ports with
  | nil => intro b1 b2; simp
  | cons p ps ih =>
    intro b1 b2
    simp only [List.foldl_cons, List.filter_cons]
    by_cases hp : PortWatcher.check_port (probe p) = true
    · rw [if_pos hp, ih]
      simp [hp]
    · rw [if_neg hp, ih]
      simp only [Bool.not_eq_true] at hp
      simp [hp]

/-- The result of `scan_ports` written as filters of the port range. -/
theorem scan_ports_eq (probe : Nat → PortWatcher.ConnectOutcome)
    (startPort endPort : Nat) (elapsed : ℚ) :
    PortWatcher.scan_ports probe startPort endPort elapsed
      = ((List.range' startPort (endPort + 1 - startPort)).filter
            (fun p => PortWatcher.check_port (probe p)),
         (List.range' startPort (endPort + 1 - startPort)).filter
            (fun p => !PortWatcher.check_port (probe p)),
         elapsed) := by
  simp only [PortWatcher.scan_ports]
  rw [scan_foldl_eq]
  simp

/-- A password that passes validation takes the `(True, None)` branch. -/
theorem validate_eq_of_valid (p : List Char)
    (hv : (PasswordChecker.validate_password_input p).1 = true) :
    PasswordChecker.validate_password_input p = (true, none) := by
  unfold PasswordChecker.validate_password_input at hv ⊢
  split_ifs at hv ⊢
  simp_all

/-- On valid passwords the strength label factors through the criteria
count. -/
theorem check_eq_labelOfScore (p : List Char)
    (hv : (PasswordChecker.validate_password_input p).1 = true) :
    PasswordChecker.check_password_strength p
      = PasswordChecker.labelOfScore (PasswordChecker.criteriaScore p) := by
  unfold PasswordChecker.check_password_strength
  rw [validate_eq_of_valid p hv]
  rfl

/-- The label-of-count function is monotone in the count. -/
theorem labelOfScore_mono (m n : Nat) (hmn : m ≤ n) :
    PasswordChecker.labelRank (PasswordChecker.labelOfScore m)
      ≤ PasswordChecker.labelRank (PasswordChecker.labelOfScore n) := by
  unfold PasswordChecker.labelOfScore
  split_ifs <;> simp [PasswordChecker.labelRank] <;> omega

/-- C3: for every to-do task string on which `is_completed` is false,
marking it done and then undone via `toggle_completion` restores the
original string exactly. -/
theorem C3_toggle_completion_roundtrip (t : List Char)
    (h : TodoCli.is_completed t = false) :
    TodoCli.toggle_completion (TodoCli.toggle_completion t) = t := by
  have h1 : TodoCli.toggle_completion t = '[' :: 'x' :: ']' :: ' ' :: t := by
    simp [TodoCli.toggle_completion, h]
  rw [h1]
  simp [TodoCli.toggle_completion, TodoCli.is_completed, List.isPrefixOf]

/-- Witness for C3 at the task "Buy milk". -/
theorem C3_witness :
    TodoCli.is_completed "Buy milk".toList = false ∧
      TodoCli.toggle_completion (TodoCli.toggle_completion "Buy milk".toList)
        = "Buy milk".toList :=
  ⟨by decide, C3_toggle_completion_roundtrip _ (by decide)⟩

/-- C10: whenever `add_task` succeeds it appends exactly one task of length
at most MAX_TASK_LEN (36); and when the stripped input is longer than 36
characters, the stored task is its first 36 characters, which is also what
the case-insensitive duplicate check ran on. -/
theorem C10_add_task_truncates (task : List Char)
    (todos todos1 : List (List Char))
    (h : TodoCli.add_task task todos = some todos1) :
    ∃ t, todos1 = todos ++ [t] ∧ t.length ≤ TodoCli.MAX_TASK_LEN ∧
      ¬(todos.map (fun u => Py.pyLower (Py.pyStrip u))).contains (Py.pyLower t) ∧
      ((Py.pyStrip task).length > TodoCli.MAX_TASK_LEN →
        t = (Py.pyStrip task).take TodoCli.MAX_TASK_LEN) := by
  unfold TodoCli.add_task at h
  by_cases he : (Py.pyStrip task).isEmpty
  · simp [he] at h
  · simp only [he, Bool.false_eq_true, if_false] at h
    by_cases hl : (Py.pyStrip task).length > TodoCli.MAX_TASK_LEN
    · simp only [hl, if_true] at h
      split at h
      · exact Option.noConfusion h
      next hd =>
        rw [Option.some.injEq] at h
        subst h
        refine ⟨_, rfl, ?_, by simpa using hd, fun _ => rfl⟩
        rw [List.length_take]
        exact min_le_left _ _
    · simp only [hl, if_false] at h
      split at h
      · exact Option.noConfusion h
      next hd =>
        rw [Option.some.injEq] at h
        subst h
        exact ⟨_, rfl, Nat.le_of_not_lt hl, by simpa using hd, fun hc => absurd hc hl⟩

/-- Witness for C10 at a 40-character input over an empty todo list. -/
theorem C10_witness :
    ∃ t, ["aaaaaaaaaaaaaaaaaaaaaaaaaaaaaaaaaaaa".toList]
        = ([] : List (List Char)) ++ [t] ∧
      t.length ≤ TodoCli.MAX_TASK_LEN ∧
      ¬(([] : List (List Char)).map (fun u => Py.pyLower (Py.pyStrip u))).contains
          (Py.pyLower t) ∧
      ((Py.pyStrip "aaaaaaaaaaaaaaaaaaaaaaaaaaaaaaaaaaaabcde".toList).length
            > TodoCli.MAX_TASK_LEN →
        t = (Py.pyStrip "aaaaaaaaaaaaaaaaaaaaaaaaaaaaaaaaaaaabcde".toList).take
          TodoCli.MAX_TASK_LEN) :=
  C10_add_task_truncates "aaaaaaaaaaaaaaaaaaaaaaaaaaaaaaaaaaaabcde".toList []
    ["aaaaaaaaaaaaaaaaaaaaaaaaaaaaaaaaaaaa".toList] (by decide)

/-- C9: for every grid and iteration bound, the vectorized masked
computation embedded from `calculate_set` produces, at each grid cell, the
same value as the reference per-cell escape-time definition: the first loop
index i < max_iter whose iterate of z ↦ z² + c from z = 0 satisfies
|z|² > 4, or max_iter if no iterate escapes.  The statement is polymorphic
in the cell arithmetic, so it covers the complex floating-point instance
NumPy evaluates. -/
theorem C9_calculate_set_refines {α : Type} (stepF : α → α → α) (p : α → Bool)
    (z0 : α) (maxIter : Nat) (cells : List α) (j : Nat) (hj : j < cells.length)
    (hj2 : j < (Mandelbrot.calculate_set stepF p z0 maxIter cells).length) :
    (Mandelbrot.calculate_set stepF p z0 maxIter cells).get ⟨j, hj2⟩
      = Mandelbrot.escapeTimeRef (fun w => stepF (cells.get ⟨j, hj⟩) w) p
          maxIter z0 := by
  have hinit : j < (cells.map (fun c =>
      ({ c := c, z := z0, esc := maxIter, active := true } : Mandelbrot.MCell α))).length := by
    simpa using hj
  have hloop : j < (Mandelbrot.calcLoop stepF p maxIter 0
      (cells.map (fun c =>
        ({ c := c, z := z0, esc := maxIter, active := true } : Mandelbrot.MCell α)))).length := by
    rw [calcLoop_length]
    exact hinit
  have hmain : (Mandelbrot.calculate_set stepF p z0 maxIter cells).get ⟨j, hj2⟩
      = ((Mandelbrot.calcLoop stepF p maxIter 0
          (cells.map (fun c =>
            ({ c := c, z := z0, esc := maxIter, active := true } : Mandelbrot.MCell α)))).get
          ⟨j, hloop⟩).esc := by
    simp [Mandelbrot.calculate_set, List.get_eq_getElem, List.getElem_map]
  have hget : (cells.map (fun c =>
      ({ c := c, z := z0, esc := maxIter, active := true } : Mandelbrot.MCell α))).get ⟨j, hinit⟩
      = { c := cells.get ⟨j, hj⟩, z := z0, esc := maxIter, active := true } := by
    simp [List.get_eq_getElem, List.getElem_map]
  rw [hmain, calcLoop_get stepF p maxIter 0 _ j hinit hloop, hget]
  exact stepN_esc stepF p (cells.get ⟨j, hj⟩) maxIter maxIter 0 z0

/-- Witness for C9: a one-cell grid over exact rational complex arithmetic
with c = 3, which escapes at loop index 0. -/
theorem C9_witness :
    (Mandelbrot.calculate_set Mandelbrot.qStep Mandelbrot.qEscaped
          ((0 : ℚ), (0 : ℚ)) 3 [((3 : ℚ), (0 : ℚ))]).get
        ⟨0, by simp [Mandelbrot.calculate_set, calcLoop_length]⟩
      = Mandelbrot.escapeTimeRef
          (fun w => Mandelbrot.qStep
            ([((3 : ℚ), (0 : ℚ))].get ⟨0, by decide⟩) w)
          Mandelbrot.qEscaped 3 ((0 : ℚ), (0 : ℚ)) :=
  C9_calculate_set_refines Mandelbrot.qStep Mandelbrot.qEscaped
    ((0 : ℚ), (0 : ℚ)) 3 [((3 : ℚ), (0 : ℚ))] 0 (by decide)
    (by simp [Mandelbrot.calculate_set, calcLoop_length])

/-- C1: for a scan of an inclusive range [start, end] with start ≤ end,
`scan_ports` classifies each port by its single connect outcome (busy
exactly when the connect completes, free on timeout, refusal or socket
error, as `check_port` reports), and the two returned lists are strictly
ascending, disjoint, cover exactly the ports from start to end with each
port counted once overall, and come with the elapsed wall-clock time. -/
theorem C1_scan_ports_partition (probe : Nat → PortWatcher.ConnectOutcome)
    (startPort endPort : Nat) (elapsed : ℚ) (h : startPort ≤ endPort) :
    (∀ p, p ∈ (PortWatcher.scan_ports probe startPort endPort elapsed).1 ↔
        startPort ≤ p ∧ p ≤ endPort ∧ PortWatcher.check_port (probe p) = true) ∧
    (∀ p, p ∈ (PortWatcher.scan_ports probe startPort endPort elapsed).2.1 ↔
        startPort ≤ p ∧ p ≤ endPort ∧ PortWatcher.check_port (probe p) = false) ∧
    (PortWatcher.scan_ports probe startPort endPort elapsed).1.Pairwise (· < ·) ∧
    (PortWatcher.scan_ports probe startPort endPort elapsed).2.1.Pairwise (· < ·) ∧
    (∀ p, p ∈ (PortWatcher.scan_ports probe startPort endPort elapsed).1 →
        p ∉ (PortWatcher.scan_ports probe startPort endPort elapsed).2.1) ∧
    (∀ p, startPort ≤ p → p ≤ endPort →
        (PortWatcher.scan_ports probe startPort endPort elapsed).1.count p
          + (PortWatcher.scan_ports probe startPort endPort elapsed).2.1.count p = 1) ∧
    (PortWatcher.scan_ports probe startPort endPort elapsed).2.2 = elapsed := by
  rw [scan_ports_eq]
  refine ⟨?_, ?_, ?_, ?_, ?_, ?_, rfl⟩
  · intro p
    simp only [List.mem_filter, List.mem_range'_1]
    constructor
    · rintro ⟨⟨h1, h2⟩, h3⟩
      exact ⟨h1, by omega, h3⟩
    · rintro ⟨h1, h2, h3⟩
      exact ⟨⟨h1, by omega⟩, h3⟩
  · intro p
    simp only [List.mem_filter, List.mem_range'_1]
    constructor
    · rintro ⟨⟨h1, h2⟩, h3⟩
      refine ⟨h1, by omega, ?_⟩
      simpa using h3
    · rintro ⟨h1, h2, h3⟩
      refine ⟨⟨h1, by omega⟩, ?_⟩
      simpa using h3
  · exact (List.pairwise_lt_range' startPort (endPort + 1 - startPort)).filter _
  · exact (List.pairwise_lt_range' startPort (endPort + 1 - startPort)).filter _
  · intro p hp1 hp2
    rw [List.mem_filter] at hp1 hp2
    rw [hp1.2] at hp2
    simp at hp2
  · intro p h1 h2
    by_cases hc : PortWatcher.check_port (probe p) = true
    · have hb := List.count_eq_one_of_mem
        ((List.nodup_range' startPort (endPort + 1 - startPort)).filter
          (fun q => PortWatcher.check_port (probe q)))
        (List.mem_filter.mpr ⟨List.mem_range'_1.mpr ⟨h1, by omega⟩, hc⟩)
      have hf : p ∉ (List.range' startPort (endPort + 1 - startPort)).filter
          (fun q => !PortWatcher.check_port (probe q)) := by
        rw [List.mem_filter]
        rintro ⟨-, hx⟩
        rw [hc] at hx
        simp at hx
      rw [hb, List.count_eq_zero_of_not_mem hf]
    · have hf := List.count_eq_one_of_mem
        ((List.nodup_range' startPort (endPort + 1 - startPort)).filter
          (fun q => !PortWatcher.check_port (probe q)))
        (List.mem_filter.mpr ⟨List.mem_range'_1.mpr ⟨h1, by omega⟩, by
          simp only [Bool.not_eq_true] at hc
          simp [hc]⟩)
      have hbn : p ∉ (List.range' startPort (endPort + 1 - startPort)).filter
          (fun q => PortWatcher.check_port (probe q)) := by
        rw [List.mem_filter]
        rintro ⟨-, hx⟩
        exact hc hx
      rw [hf, List.count_eq_zero_of_not_mem hbn]

/-- Witness for C1: the port-count component at port 1 of a one-port scan
whose probe always raises. -/
theorem C1_witness :
    (PortWatcher.scan_ports (fun _ => PortWatcher.ConnectOutcome.raised)
          1 1 0).1.count 1
        + (PortWatcher.scan_ports (fun _ => PortWatcher.ConnectOutcome.raised)
          1 1 0).2.1.count 1 = 1 :=
  (C1_scan_ports_partition (fun _ => PortWatcher.ConnectOutcome.raised) 1 1 0
      (by decide)).2.2.2.2.2.1 1 (by decide) (by decide)

/-- C5: for every password accepted by input validation, the strength label
is a function of the number of satisfied criteria alone (length ≥ 8,
has-uppercase, has-lowercase, has-digit), that function is monotonically
non-decreasing in the count, and "password", "Password", "Password1" yield
Weak, Medium, Strong respectively. -/
theorem C5_password_strength_monotone :
    (∀ p, (PasswordChecker.validate_password_input p).1 = true →
        PasswordChecker.check_password_strength p
          = PasswordChecker.labelOfScore (PasswordChecker.criteriaScore p)) ∧
    (∀ p q, (PasswordChecker.validate_password_input p).1 = true →
        (PasswordChecker.validate_password_input q).1 = true →
        PasswordChecker.criteriaScore p ≤ PasswordChecker.criteriaScore q →
        PasswordChecker.labelRank (PasswordChecker.check_password_strength p)
          ≤ PasswordChecker.labelRank (PasswordChecker.check_password_strength q)) ∧
    PasswordChecker.check_password_strength "password".toList = "Weak" ∧
    PasswordChecker.check_password_strength "Password".toList = "Medium" ∧
    PasswordChecker.check_password_strength "Password1".toList = "Strong" := by
  refine ⟨check_eq_labelOfScore, ?_, by decide, by decide, by decide⟩
  intro p q hp hq hle
  rw [check_eq_labelOfScore p hp, check_eq_labelOfScore q hq]
  exact labelOfScore_mono _ _ hle

/-- Witness for C5: the factorization at "abcd" and the monotonicity
instance from "abcd" to "Password1". -/
theorem C5_witness :
    PasswordChecker.check_password_strength "abcd".toList
        = PasswordChecker.labelOfScore (PasswordChecker.criteriaScore "abcd".toList) ∧
      PasswordChecker.labelRank (PasswordChecker.check_password_strength "abcd".toList)
        ≤ PasswordChecker.labelRank
            (PasswordChecker.check_password_strength "Password1".toList) :=
  ⟨C5_password_strength_monotone.1 "abcd".toList (by decide),
    C5_password_strength_monotone.2.1 "abcd".toList "Password1".toList
      (by decide) (by decide) (by decide)⟩

/-- C6: `parse_formula` expands bracketed groups, multiplying inner counts
by the trailing multiplier and summing across the formula: "Ca(OH)2" parses
to Ca 1, O 2, H 2 and "Fe2(SO4)3" parses to Fe 2, S 3, O 12. -/
theorem C6_parse_formula_brackets :
    ChemToolkit.parse_formula "Ca(OH)2".toList
        = Except.ok [("Ca", 1), ("O", 2), ("H", 2)] ∧
      ChemToolkit.parse_formula "Fe2(SO4)3".toList
        = Except.ok [("Fe", 2), ("S", 3), ("O", 12)] :=
  ⟨rfl, rfl⟩

/-- C2 (failing input): invoking the port watcher CLI with `--port 0` — a
single port outside [1, 65535] — does not produce the exit-1 user input
error the specification requires: because `if args.port:` tests Python
truthiness and `0` is falsy, validation falls through to the default-range
branch and a scan of 8000-9000 is started. -/
theorem C2_port_zero_starts_scan :
    PortWatcher.validateAndDispatch
        { port := some 0, start := 8000, stop := 9000 }
      = PortWatcher.MainResult.scan 8000 9000 ∧
    PortWatcher.validateAndDispatch
        { port := some 0, start := 8000, stop := 9000 }
      ≠ PortWatcher.MainResult.exitError 1 :=
  ⟨rfl, by decide⟩

/-- C4: `mark_task_done` on an index outside the list bounds fails and
leaves the list unchanged, and on an already-done task fails and leaves the
list unchanged. -/
theorem C4_mark_task_done_fails_unchanged (todos : List (List Char)) (i : Int) :
    (¬(0 ≤ i ∧ i.toNat < todos.length) →
        TodoMarkDone.mark_task_done todos i
          = (todos, false, "Invalid task number")) ∧
    (∀ h : 0 ≤ i ∧ i.toNat < todos.length,
        TodoMarkDone.is_task_done (todos.get ⟨i.toNat, h.2⟩) = true →
        TodoMarkDone.mark_task_done todos i
          = (todos, false, "Task is already marked as done")) := by
  constructor
  · intro hout
    unfold TodoMarkDone.mark_task_done
    rw [dif_neg hout]
  · intro h hdone
    unfold TodoMarkDone.mark_task_done
    rw [dif_pos h, if_pos hdone]

/-- Witness for C4: both failure modes on the singleton list containing an
already-done task. -/
theorem C4_witness :
    TodoMarkDone.mark_task_done ["[x] Buy groceries".toList] 5
        = (["[x] Buy groceries".toList], false, "Invalid task number") ∧
      TodoMarkDone.mark_task_done ["[x] Buy groceries".toList] 0
        = (["[x] Buy groceries".toList], false,
            "Task is already marked as done") :=
  ⟨(C4_mark_task_done_fails_unchanged ["[x] Buy groceries".toList] 5).1
      (by decide),
    (C4_mark_task_done_fails_unchanged ["[x] Buy groceries".toList] 0).2
      ⟨by decide, by decide⟩ (by decide)⟩

/-- C8: `load_data` returns the empty state, without raising, on every
degenerate on-disk state: a missing file, unparseable JSON, and a parsed
JSON object missing the "transactions" or "goals" key. -/
theorem C8_load_data_empty_on_bad_state :
    FinanceTracker.load_data FinanceTracker.LoadResult.missingFile
        = FinanceTracker.emptyState ∧
      FinanceTracker.load_data FinanceTracker.LoadResult.parseError
        = FinanceTracker.emptyState ∧
      ∀ kvs, (FinanceTracker.keyIn "transactions" kvs = false ∨
          FinanceTracker.keyIn "goals" kvs = false) →
        FinanceTracker.load_data (FinanceTracker.LoadResult.parsedObj kvs)
          = FinanceTracker.emptyState := by
  refine ⟨rfl, rfl, ?_⟩
  intro kvs hk
  unfold FinanceTracker.load_data
  rcases hk with hk | hk <;> simp [hk]

/-- Witness for C8: a parsed object with the "goals" key absent. -/
theorem C8_witness :
    FinanceTracker.load_data
        (FinanceTracker.LoadResult.parsedObj
          [("transactions", FinanceTracker.JValue.jArr [])])
      = FinanceTracker.emptyState :=
  C8_load_data_empty_on_bad_state.2.2 _ (Or.inr rfl)

/-- C7: starting from a validly saved state, appending a transaction and
saving, then appending a second transaction and saving again, leaves the
data file holding the serialization of the state with both new
transactions present, and leaves the .bak file equal to the data file's
content after the first save. -/
theorem C7_save_twice_backup (ts gs : List FinanceTracker.JValue)
    (b : Option FinanceTracker.JValue) (t1 t2 : FinanceTracker.JValue) :
    let d0 := [("transactions", FinanceTracker.JValue.jArr ts),
               ("goals", FinanceTracker.JValue.jArr gs)]
    let fs0 : FinanceTracker.FS :=
      { main := some (FinanceTracker.JValue.jObj d0), bak := b }
    let r1 := FinanceTracker.add_transaction fs0 d0 t1
    let r2 := FinanceTracker.add_transaction r1.1 r1.2 t2
    r1.1.main = some (FinanceTracker.JValue.jObj
        [("transactions", FinanceTracker.JValue.jArr (ts ++ [t1])),
         ("goals", FinanceTracker.JValue.jArr gs)]) ∧
      r2.1.main = some (FinanceTracker.JValue.jObj
        [("transactions", FinanceTracker.JValue.jArr (ts ++ [t1, t2])),
         ("goals", FinanceTracker.JValue.jArr gs)]) ∧
      r2.1.bak = r1.1.main := by
  simp [FinanceTracker.add_transaction, FinanceTracker.appendTransaction,
    FinanceTracker.save_data]
